import Mathlib

/-!
Verification of the extraction-and-merge pipeline of the contract-generation
application (`app.py`): document routing, provider fallback chains, image
compression, address composition, record merging, completeness validation and
placeholder substitution.  Python dictionaries are embedded as association
lists over a value type `PyVal` mirroring the JSON-ish values the pipeline
manipulates; the provider calls, the filesystem and the image encoder are
abstracted into explicit environment records so that every function of the
source becomes a total Lean function of its environment.
-/

namespace ContractApp

/-- Values flowing through the pipeline: the subset of Python values the
extraction code stores in its dictionaries (None, strings, ints, bools,
nested dicts and lists). -/
inductive PyVal where
  | vnone
  | vstr (s : String)
  | vint (n : Int)
  | vbool (b : Bool)
  | vdict (fields : List (String × PyVal))
  | vlist (items : List PyVal)

/-- A Python dict, embedded as an association list (first binding wins). -/
abbrev Dict := List (String × PyVal)

/-- `d.get(k)` — `None` when the key is absent (Python `dict.get` default). -/
def dictGet (d : Dict) (k : String) : PyVal :=
  match d with
  | [] => .vnone
  | (k', v) :: rest => if k' = k then v else dictGet rest k

/-- Lookup returning `none` when the key is absent (for stating presence). -/
def dictFind (d : Dict) (k : String) : Option PyVal :=
  match d with
  | [] => none
  | (k', v) :: rest => if k' = k then some v else dictFind rest k

/-! ### Python string primitives

The string operations the source uses (`strip`, `lower`, `upper`,
`startswith`, `in`, `replace`, `split`) are re-implemented over the
character list of the string so that they compute by kernel reduction;
each mirrors the CPython behaviour of the operation on the ASCII data the
pipeline manipulates. -/

/-- The whitespace characters Python `str.strip` removes (ASCII range). -/
def isPySpace (c : Char) : Bool :=
  c = ' ' || c = '\t' || c = '\n' || c = '\r' || c = '\x0b' || c = '\x0c'

def dropLeadingSpace : List Char → List Char
  | [] => []
  | c :: rest => if isPySpace c then dropLeadingSpace rest else c :: rest

/-- Python `s.strip()`. -/
def pyStrip (s : String) : String :=
  String.mk ((dropLeadingSpace ((dropLeadingSpace s.data).reverse)).reverse)

/-- Python `s.lower()` (ASCII). -/
def pyLower (s : String) : String :=
  String.mk (s.data.map Char.toLower)

/-- Python `s.upper()` (ASCII). -/
def pyUpper (s : String) : String :=
  String.mk (s.data.map Char.toUpper)

/-- Does the second list start with the first? -/
def charsLead : List Char → List Char → Bool
  | [], _ => true
  | _ :: _, [] => false
  | a :: as, b :: bs => a = b && charsLead as bs

/-- Python `s.startswith(p)`. -/
def pyStartsWith (s p : String) : Bool :=
  charsLead p.data s.data

def containsChars (needle : List Char) : List Char → Bool
  | [] => needle.isEmpty
  | c :: rest => charsLead needle (c :: rest) || containsChars needle rest

/-- Python `needle in hay` (substring containment). -/
def pyIn (needle hay : String) : Bool :=
  containsChars needle.data hay.data

/-- Python `s.replace(old, new)` for single-character `old`/`new`, the only
form the source uses (`.replace('_', ' ')`). -/
def pyReplaceChar (s : String) (old new : Char) : String :=
  String.mk (s.data.map fun c => if c = old then new else c)

/-- Python `s.split(sep)` for a single-character separator. -/
def splitOnChar (sep : Char) : List Char → List (List Char)
  | [] => [[]]
  | c :: rest =>
    match splitOnChar sep rest with
    | [] => [[c]]
    | g :: gs => if c = sep then [] :: g :: gs else (c :: g) :: gs

/-- `filepath.lower().split('.')[-1]` — the declared-extension computation
shared by the router and the mime-type fallback. -/
def fileExt (filepath : String) : String :=
  String.mk ((splitOnChar '.' (pyLower filepath).data).getLastD [])

/-- Python truthiness on the values the pipeline stores. -/
def pyTruthy : PyVal → Bool
  | .vnone => false
  | .vstr s => s != ""
  | .vint n => n != 0
  | .vbool b => b
  | .vdict fields => !fields.isEmpty
  | .vlist items => !items.isEmpty

/-- An "empty or null" extracted value in the sense of the merge claim:
`None` or the empty string. -/
def isBlankVal : PyVal → Bool
  | .vnone => true
  | .vstr s => s == ""
  | _ => false

mutual
/-- Python `repr` of a pipeline value (quote/backslash escaping inside
nested strings is elided; no value the claims touch contains either). -/
def pyRepr : PyVal → String
  | .vnone => "None"
  | .vstr s => "\x27" ++ s ++ "\x27"
  | .vint n => toString n
  | .vbool b => if b then "True" else "False"
  | .vdict fields => "\x7b" ++ pyReprFields fields ++ "\x7d"
  | .vlist items => "[" ++ pyReprItems items ++ "]"

def pyReprFields : List (String × PyVal) → String
  | [] => ""
  | [kv] => "\x27" ++ kv.1 ++ "\x27: " ++ pyRepr kv.2
  | kv :: rest => "\x27" ++ kv.1 ++ "\x27: " ++ pyRepr kv.2 ++ ", " ++ pyReprFields rest

def pyReprItems : List PyVal → String
  | [] => ""
  | [x] => pyRepr x
  | x :: rest => pyRepr x ++ ", " ++ pyReprItems rest
end

/-- Python `str` of a pipeline value. -/
def pyStr : PyVal → String
  | .vstr s => s
  | v => pyRepr v

/-- `A.update(B)`: Python dict update.  Keys present in `A` keep their
position but take `B`'s value when `B` binds them; keys of `B` absent from
`A` are appended in `B`'s order. -/
def dictUpdate (A B : Dict) : Dict :=
  (A.map fun kv =>
    match dictFind B kv.1 with
    | some v => (kv.1, v)
    | none => kv)
  ++ B.filter (fun kv => (dictFind A kv.1).isNone)

/-- The record-merge step of `process` (app.py lines 669–672 and 749–752):
`if extracted: partner_info.update(extracted)` — a plain dict update guarded
only on the new extraction result being a non-empty dict. -/
def mergeRecord (A B : Dict) : Dict :=
  if B.isEmpty then A else dictUpdate A B

theorem dictFind_append (xs ys : Dict) (k : String) :
    dictFind (xs ++ ys) k =
      match dictFind xs k with
      | some v => some v
      | none => dictFind ys k := by
  induction xs with
  | nil => simp [dictFind]
  | cons kv rest ih =>
    by_cases h : kv.1 = k <;> simp [dictFind, h, ih]

theorem dictFind_map_update (A B : Dict) (k : String) :
    dictFind (A.map fun kv =>
      match dictFind B kv.1 with
      | some v => (kv.1, v)
      | none => kv) k =
      match dictFind A k with
      | some _ =>
        match dictFind B k with
        | some v => some v
        | none => dictFind A k
      | none => none := by
  induction A with
  | nil => simp [dictFind]
  | cons kv rest ih =>
    by_cases h : kv.1 = k
    · subst h
      cases hB : dictFind B kv.1 <;> simp [dictFind, hB]
    · cases hBk : dictFind B kv.1 <;> simp [dictFind, h, ih, hBk]

theorem dictFind_filter_not_in (A B : Dict) (k : String) (hA : dictFind A k = none) :
    dictFind (B.filter (fun kv => (dictFind A kv.1).isNone)) k = dictFind B k := by
  induction B with
  | nil => rfl
  | cons kv rest ih =>
    rw [List.filter_cons]
    by_cases h : kv.1 = k
    · subst h
      simp [hA, dictFind]
    · by_cases hkeep : (dictFind A kv.1).isNone
      · rw [if_pos hkeep]
        simp [dictFind, h, ih]
      · rw [if_neg hkeep]
        simp [dictFind, h, ih]

/-- Characterisation of Python `dict.update` on lookups: for every key, the
updated dict holds `B`'s value when `B` binds the key (empty or not), and
`A`'s value otherwise. -/
theorem dictUpdate_find (A B : Dict) (k : String) :
    dictFind (dictUpdate A B) k =
      match dictFind B k with
      | some v => some v
      | none => dictFind A k := by
  unfold dictUpdate
  rw [dictFind_append, dictFind_map_update]
  cases hA : dictFind A k with
  | some v =>
    cases hB : dictFind B k <;> simp [hA, hB]
  | none =>
    rw [dictFind_filter_not_in A B k hA]
    cases hB : dictFind B k <;> simp [hA, hB]

theorem mergeRecord_find (A B : Dict) (k : String) :
    dictFind (mergeRecord A B) k =
      match dictFind B k with
      | some v => some v
      | none => dictFind A k := by
  cases B with
  | nil => rfl
  | cons kv rest =>
    have h : mergeRecord A (kv :: rest) = dictUpdate A (kv :: rest) := rfl
    rw [h, dictUpdate_find]

/-- C1, counterexample.  The claim says the record merge step never replaces
a non-empty existing field with an empty or null value from the new
extraction result.  The merge step is a plain guarded `dict.update`, so a
record holding `name = "Maria"` merged with a result binding `name` to the
empty string ends up with an empty `name`: the merged record does not still
hold `A[k]`, and the set of non-empty keys decreases. -/
theorem claimC1_counterexample :
    pyTruthy (dictGet [("name", PyVal.vstr "Maria")] "name") = true ∧
    dictFind [("name", PyVal.vstr "")] "name" = some (.vstr "") ∧
    isBlankVal (.vstr "") = true ∧
    ¬ dictGet (mergeRecord [("name", PyVal.vstr "Maria")] [("name", PyVal.vstr "")]) "name"
        = .vstr "Maria" := by
  refine ⟨rfl, rfl, rfl, ?_⟩
  intro h
  have h' : (PyVal.vstr "") = (PyVal.vstr "Maria") := h
  injection h' with h''
  exact absurd h'' (by decide)

/-- C1, amended.  The record merge step of `process` is a plain dict update
guarded only on the new result `B` being non-empty: every key bound in `B`
takes `B`'s value even when that value is empty/null and the accumulating
record `A` held a non-empty value; keys not bound in `B` keep `A`'s value;
consequently the set of PRESENT keys never decreases, and for every key
bound in `B` to a non-empty value the merged value equals `B[k]`. -/
theorem claimC1_amended (A B : Dict) (k : String) :
    (B = [] → mergeRecord A B = A) ∧
    dictFind (mergeRecord A B) k =
      (match dictFind B k with
       | some v => some v
       | none => dictFind A k) ∧
    ((dictFind A k).isSome = true → (dictFind (mergeRecord A B) k).isSome = true) ∧
    (∀ v, dictFind B k = some v → pyTruthy v = true →
      dictFind (mergeRecord A B) k = some v) := by
  refine ⟨?_, mergeRecord_find A B k, ?_, ?_⟩
  · intro h
    subst h
    rfl
  · intro h
    rw [mergeRecord_find]
    cases hB : dictFind B k
    · simpa using h
    · rfl
  · intro v hv _
    rw [mergeRecord_find, hv]

/-- Witness for `claimC1_amended` at a concrete record and result. -/
theorem claimC1_amended_witness :
    dictFind (mergeRecord [("name", PyVal.vstr "Maria")] [("cpf", PyVal.vstr "123")]) "cpf"
      = some (PyVal.vstr "123") :=
  (claimC1_amended [("name", PyVal.vstr "Maria")] [("cpf", PyVal.vstr "123")] "cpf").2.2.2
    (PyVal.vstr "123") rfl rfl

/-! ### Provider text-extraction chain

`extract_data_with_mistral_chat` and `extract_data_with_ai` perform one
synchronous provider call each; the call's outcome (exception, a reply
containing no JSON object, or a parsed JSON object) is the only source of
nondeterminism and is carried in an explicit environment record. -/

/-- Outcome of the Mistral chat call as seen by
`extract_data_with_mistral_chat`: the call (or the `json.loads` on the
matched reply substring) raised; the reply contained no brace-balanced JSON
object; or a JSON object was found and parsed to `d`. -/
inductive ChatOutcome where
  | exn
  | noJson
  | json (d : Dict)

/-- Outcome of the OpenAI chat call as seen by `extract_data_with_ai`:
`none` when the call or the JSON decode raised, `some d` when the reply
parsed to `d`. -/
abbrev AiOutcome := Option Dict

structure ProviderEnv where
  mistralAvail : Bool
  openaiAvail : Bool
  mistralOutcome : ChatOutcome
  aiOutcome : AiOutcome

/-- `extract_data_with_mistral_chat` (app.py 341–396): `None` when no
Mistral client is configured or the text is empty; `None` on any exception;
`{}` when the reply holds no JSON object; otherwise the parsed object. -/
def extract_data_with_mistral_chat (env : ProviderEnv) (text : String) : Option Dict :=
  if !env.mistralAvail || text == "" then none
  else
    match env.mistralOutcome with
    | .exn => none
    | .noJson => some []
    | .json d => some d

/-- `extract_data_with_ai` (app.py 91–136): `{}` when no OpenAI client is
configured or the text is empty; `{}` on `JSONDecodeError` or any other
exception; otherwise the parsed object. -/
def extract_data_with_ai (env : ProviderEnv) (text : String) : Dict :=
  if !env.openaiAvail || text == "" then []
  else
    match env.aiOutcome with
    | some d => d
    | none => []

/-- The text-path extraction chain inside `extract_document_data`
(app.py 466–477): Mistral first; its result is returned when it is not
`None` and has at least one field; otherwise OpenAI text parsing. -/
def text_path_result (env : ProviderEnv) (text : String) : Dict :=
  match extract_data_with_mistral_chat env text with
  | some r => if !r.isEmpty then r else extract_data_with_ai env text
  | none => extract_data_with_ai env text

/-- C3: on the text path the primary (Mistral) result wins whenever it is
non-null with at least one key; the secondary (OpenAI) extractor runs only
when the primary returned null or a zero-key result; and when the secondary
also fails — or no OpenAI client is configured — the chain returns the
empty mapping rather than an error. -/
theorem claimC3 (env : ProviderEnv) (text : String) :
    (∀ r, extract_data_with_mistral_chat env text = some r → r ≠ [] →
      text_path_result env text = r) ∧
    ((extract_data_with_mistral_chat env text = none ∨
      extract_data_with_mistral_chat env text = some []) →
      text_path_result env text = extract_data_with_ai env text) ∧
    ((extract_data_with_mistral_chat env text = none ∨
      extract_data_with_mistral_chat env text = some []) →
      ((!env.openaiAvail || text == "") = true ∨ env.aiOutcome = none) →
      text_path_result env text = []) := by
  refine ⟨?_, ?_, ?_⟩
  · intro r hr hne
    unfold text_path_result
    rw [hr]
    simp [hne]
  · intro h
    unfold text_path_result
    rcases h with h | h <;> simp [h]
  · intro h hfail
    have hai : extract_data_with_ai env text = [] := by
      unfold extract_data_with_ai
      rcases hfail with hf | hf
      · rw [if_pos hf]
      · cases hc : (!env.openaiAvail || text == "") <;> simp [hc, hf]
    unfold text_path_result
    rcases h with h | h <;> rw [h] <;> simp [hai]

/-- Witness for `claimC3`: a partial one-field Mistral result wins over the
fallback. -/
theorem claimC3_witness :
    text_path_result
      ⟨true, true, .json [("name", PyVal.vstr "Ana")], some [("name", PyVal.vstr "B")]⟩
      "doc text"
      = [("name", PyVal.vstr "Ana")] :=
  (claimC3 ⟨true, true, .json [("name", PyVal.vstr "Ana")], some [("name", PyVal.vstr "B")]⟩
      "doc text").1
    [("name", PyVal.vstr "Ana")] rfl (by simp)

/-! ### Image normalizer and vision extractor

`compress_image_for_api` re-encodes the image as JPEG, lowering the quality
in steps of 10 from 90 while the encoded byte size exceeds the budget and
the quality is above 50.  The image encoder is abstracted as a byte-size
function of the quality; whether any of the PIL steps raises is one
environment flag (the whole body sits in a single `try`). -/

/-- The base64 payload `extract_data_from_image` sends: either the JPEG
re-encoding produced by the normalizer at its final quality, or the
base64 of the unmodified original file bytes (the fallback). -/
inductive Payload where
  | compressed (quality : Nat)
  | original (bytes : String)

structure ImageEnv where
  openaiAvail : Bool
  /-- Does the PIL open/convert/resize/encode sequence run without raising? -/
  compressOk : Bool
  /-- Encoded JPEG byte size (`buffer.tell()`) as a function of quality. -/
  encSize : Nat → Nat
  /-- Contents of the file at the path; `none` means opening it raises
  `FileNotFoundError`. -/
  fileBytes : Option String
  /-- Does the vision API call return without raising? -/
  apiOk : Bool
  /-- Reply content when the call returns. -/
  apiContent : String
  /-- `json.loads` on a reply: `none` means `JSONDecodeError`. -/
  jsonParse : String → Option Dict

/-- The quality-reduction loop of `compress_image_for_api` (app.py 158–163):
`while buffer.tell() > max_size_kb * 1024 and quality > 50: quality -= 10`,
re-encoding at each step. -/
def compress_loop (encSize : Nat → Nat) (budget : Nat) (q : Nat) : Nat :=
  if encSize q > budget ∧ q > 50 then compress_loop encSize budget (q - 10) else q
termination_by q
decreasing_by omega

/-- `compress_image_for_api` (app.py 139–174): starts at quality 90 and
returns the final base64 JPEG payload with mime `image/jpeg`, or
`(None, None)` when any step raises. -/
def compress_image_for_api (env : ImageEnv) (max_size_kb : Nat) : Option (Payload × String) :=
  if env.compressOk then
    some (.compressed (compress_loop env.encSize (max_size_kb * 1024) 90), "image/jpeg")
  else none

/-- Mime type of the fallback payload (app.py 189–193):
`image/{ext}` for png/jpg/jpeg (with jpg corrected to `image/jpeg`),
`image/jpeg` otherwise. -/
def mimeFromName (filepath : String) : String :=
  let ext := fileExt filepath
  let m := if ext = "png" ∨ ext = "jpg" ∨ ext = "jpeg" then "image/" ++ ext else "image/jpeg"
  if ext = "jpg" then "image/jpeg" else m

inductive VisionErr where
  | jsonDecode
  | fileNotFound
  | providerErr

/-- Payload selection of `extract_data_from_image` (app.py 183–193): the
compressed payload when the normalizer succeeded, else base64 of the
original file bytes; raises `FileNotFoundError` when the file is missing. -/
def vision_payload (env : ImageEnv) (filepath : String) : Except VisionErr (Payload × String) :=
  match compress_image_for_api env 1024 with
  | some pm => .ok pm
  | none =>
    match env.fileBytes with
    | some bs => .ok (.original bs, mimeFromName filepath)
    | none => .error .fileNotFound

/-- The `try` body of `extract_data_from_image` (app.py 182–252): build the
payload, make the vision call, decode the reply as JSON; each failure mode
surfaces as the exception its `except` clause catches. -/
def vision_body (env : ImageEnv) (filepath : String) : Except VisionErr Dict :=
  match vision_payload env filepath with
  | .error e => .error e
  | .ok _pm =>
    if env.apiOk then
      match env.jsonParse env.apiContent with
      | some d => .ok d
      | none => .error .jsonDecode
    else .error .providerErr

/-- `extract_data_from_image` (app.py 176–266): empty dict when no OpenAI
client is configured; otherwise the body's result, with every raised
exception (`JSONDecodeError`, `FileNotFoundError`, anything else) caught
and converted to an empty dict. -/
def extract_data_from_image (env : ImageEnv) (filepath : String) : Dict :=
  if !env.openaiAvail then []
  else
    match vision_body env filepath with
    | .ok d => d
    | .error _ => []

/-- An environment whose PIL compression step raises but whose original
file is readable and whose vision call succeeds with a non-empty parsed
reply. -/
def imgEnvCompressFail : ImageEnv :=
  ⟨true, false, fun _ => 0, some "RAWBYTES", true, "reply",
    fun _ => some [("name", PyVal.vstr "Maria")]⟩

/-- C6, counterexample.  The claim says any compression error is caught
and converted to an empty mapping result.  In the code a compression
error makes `compress_image_for_api` return `(None, None)` and
`extract_data_from_image` then falls back to base64 of the original file
bytes and proceeds with the vision call, which can still return a
non-empty mapping: here the run with a failing compression step returns
`{name: "Maria"}`, not the empty mapping. -/
theorem claimC6_counterexample :
    imgEnvCompressFail.compressOk = false ∧
    compress_image_for_api imgEnvCompressFail 1024 = none ∧
    extract_data_from_image imgEnvCompressFail "cnh.png"
      = [("name", PyVal.vstr "Maria")] ∧
    extract_data_from_image imgEnvCompressFail "cnh.png" ≠ [] := by
  refine ⟨rfl, rfl, rfl, fun h => List.noConfusion h⟩

/-- C6, amended: no exception escapes `extract_data_from_image` — a
malformed provider JSON reply, a missing input file and a provider/network
error are each caught and converted to an empty mapping result; a
compression error, by contrast, is caught inside `compress_image_for_api`
and recovered by falling back to the base64 of the unmodified original
file bytes, after which the extraction proceeds and returns whatever the
vision call parses (possibly a non-empty mapping). -/
theorem claimC6_amended (env : ImageEnv) (filepath : String) :
    (∀ e, vision_body env filepath = .error e →
      extract_data_from_image env filepath = []) ∧
    (env.compressOk = false → ∀ bs, env.fileBytes = some bs →
      vision_payload env filepath = .ok (.original bs, mimeFromName filepath)) ∧
    (env.compressOk = false → ∀ bs d, env.fileBytes = some bs →
      env.openaiAvail = true → env.apiOk = true →
      env.jsonParse env.apiContent = some d →
      extract_data_from_image env filepath = d) := by
  refine ⟨?_, ?_, ?_⟩
  · intro e h
    unfold extract_data_from_image
    cases havail : env.openaiAvail
    · rfl
    · simp [h]
  · intro hko bs hbs
    simp [vision_payload, compress_image_for_api, hko, hbs]
  · intro hko bs d hbs havail hapi hjson
    have hpay : vision_payload env filepath = .ok (.original bs, mimeFromName filepath) := by
      simp [vision_payload, compress_image_for_api, hko, hbs]
    unfold extract_data_from_image
    rw [havail]
    unfold vision_body
    rw [hpay]
    simp [hapi, hjson]

/-- Witness for `claimC6_amended`: a missing input file is converted to an
empty result, and a failing compression step with a readable original file
still yields the vision call's non-empty parsed result. -/
theorem claimC6_amended_witness :
    extract_data_from_image
      ⟨true, false, fun _ => 0, none, true, "", fun _ => none⟩ "cnh.png" = [] ∧
    extract_data_from_image imgEnvCompressFail "cnh.png"
      = [("name", PyVal.vstr "Maria")] :=
  ⟨(claimC6_amended ⟨true, false, fun _ => 0, none, true, "", fun _ => none⟩ "cnh.png").1
      .fileNotFound rfl,
   (claimC6_amended imgEnvCompressFail "cnh.png").2.2 rfl "RAWBYTES"
      [("name", PyVal.vstr "Maria")] rfl rfl rfl rfl⟩

theorem compress_loop_spec (encSize : Nat → Nat) (budget : Nat) :
    ∀ q, 50 ≤ q → (q - 50) % 10 = 0 →
      (encSize (compress_loop encSize budget q) ≤ budget ∨
        compress_loop encSize budget q = 50) ∧
      compress_loop encSize budget q ≤ q ∧
      50 ≤ compress_loop encSize budget q ∧
      (q - compress_loop encSize budget q) % 10 = 0 := by
  intro q
  induction q using Nat.strong_induction_on with
  | _ q ih =>
    intro h50 hmod
    rw [compress_loop]
    by_cases hc : encSize q > budget ∧ q > 50
    · rw [if_pos hc]
      have hq60 : 60 ≤ q := by omega
      have := ih (q - 10) (by omega) (by omega) (by omega)
      rcases this with ⟨h1, h2, h3, h4⟩
      exact ⟨h1, by omega, h3, by omega⟩
    · rw [if_neg hc]
      refine ⟨?_, le_refl q, h50, by omega⟩
      by_cases hs : encSize q ≤ budget
      · exact Or.inl hs
      · right
        omega

/-- C7: the normalizer encodes as JPEG starting at quality 90 and steps the
quality down by 10 while the encoded size exceeds `max_size_kb * 1024` and
the quality is above 50, so on success the returned payload is within the
byte budget or was produced at the quality floor 50 (the final quality is
one of 90, 80, 70, 60, 50); when any step raises it returns `(None, None)`,
and in that case the caller's payload falls back to the base64 of the
unmodified original file bytes. -/
theorem claimC7 (env : ImageEnv) (kb : Nat) :
    (env.compressOk = true →
      compress_image_for_api env kb
        = some (.compressed (compress_loop env.encSize (kb * 1024) 90), "image/jpeg") ∧
      (env.encSize (compress_loop env.encSize (kb * 1024) 90) ≤ kb * 1024 ∨
        compress_loop env.encSize (kb * 1024) 90 = 50) ∧
      50 ≤ compress_loop env.encSize (kb * 1024) 90 ∧
      compress_loop env.encSize (kb * 1024) 90 ≤ 90 ∧
      (90 - compress_loop env.encSize (kb * 1024) 90) % 10 = 0) ∧
    (env.compressOk = false → compress_image_for_api env kb = none) ∧
    (env.compressOk = false → ∀ filepath bs, env.fileBytes = some bs →
      vision_payload env filepath = .ok (.original bs, mimeFromName filepath)) := by
  refine ⟨?_, ?_, ?_⟩
  · intro hok
    have hspec := compress_loop_spec env.encSize (kb * 1024) 90 (by omega) (by omega)
    exact ⟨by simp [compress_image_for_api, hok], hspec.1, hspec.2.2.1, hspec.2.1, hspec.2.2.2⟩
  · intro hko
    simp [compress_image_for_api, hko]
  · intro hko filepath bs hbs
    simp [vision_payload, compress_image_for_api, hko, hbs]

/-- Witness for `claimC7`: an encoder whose output at quality 90 is one
byte over a 1-byte budget at every quality runs the loop down to the floor
50; and a failing normalizer with readable original bytes produces the
original-bytes fallback payload. -/
theorem claimC7_witness :
    (compress_image_for_api ⟨true, true, fun _ => 2, none, true, "", fun _ => none⟩ 0
        = some (.compressed (compress_loop (fun _ => 2) 0 90), "image/jpeg") ∧
      ((fun _ => 2 : Nat → Nat) (compress_loop (fun _ => 2) 0 90) ≤ 0 ∨
        compress_loop (fun _ => 2) 0 90 = 50)) ∧
    vision_payload ⟨true, false, fun _ => 2, some "RAWBYTES", true, "", fun _ => none⟩ "doc.png"
      = .ok (.original "RAWBYTES", mimeFromName "doc.png") := by
  refine ⟨?_, ?_⟩
  · have h := (claimC7 ⟨true, true, fun _ => 2, none, true, "", fun _ => none⟩ 0).1 rfl
    exact ⟨h.1, h.2.1⟩
  · exact (claimC7 ⟨true, false, fun _ => 2, some "RAWBYTES", true, "", fun _ => none⟩ 0).2.2
      rfl "doc.png" "RAWBYTES" rfl

/-! ### Document router -/

structure DocEnv where
  providers : ProviderEnv
  /-- Result of `extract_text_from_pdf` (`""` when reading raised). -/
  pdfText : String
  /-- Result of `convert_pdf_to_image`: page-1 raster path or `none`. -/
  convertResult : Option String
  /-- Vision-call environment for each path handed to
  `extract_data_from_image`. -/
  imageEnv : String → ImageEnv

/-- The image path for a PDF whose embedded text is at or under the
threshold (app.py 482–497): rasterize page 1 and run vision on it;
when rasterization fails, or vision on the raster yields nothing, run
vision directly on the original PDF as a last resort. -/
def pdf_image_path_result (env : DocEnv) (filepath : String) : Dict :=
  match env.convertResult with
  | some img_path =>
    let r := extract_data_from_image (env.imageEnv img_path) img_path
    if !r.isEmpty then r
    else extract_data_from_image (env.imageEnv filepath) filepath
  | none => extract_data_from_image (env.imageEnv filepath) filepath

/-- `extract_document_data` (app.py 453–501): route on the declared
extension `filepath.lower().split('.')[-1]`; for `pdf` compare
`len(text.strip()) if text else 0` against the 500-character threshold;
for `jpg`/`jpeg`/`png` go straight to vision; else return `{}`. -/
def extract_document_data (env : DocEnv) (filepath : String) : Dict :=
  let ext := fileExt filepath
  if ext = "pdf" then
    let text := env.pdfText
    let text_length := if text = "" then 0 else (pyStrip text).length
    if text_length > 500 then
      text_path_result env.providers text
    else
      pdf_image_path_result env filepath
  else if ext = "jpg" ∨ ext = "jpeg" ∨ ext = "png" then
    extract_data_from_image (env.imageEnv filepath) filepath
  else []

/-- C2: routing of `extract_document_data` by declared extension — a PDF
whose trimmed embedded text exceeds 500 characters takes the text-model
chain; at 500 or fewer it takes the image path (rasterize page 1, vision,
then vision on the original PDF as last resort); `jpg`/`jpeg`/`png` go
straight to vision; any other extension yields the empty mapping. -/
theorem claimC2 (env : DocEnv) (fp : String) :
    (fileExt fp = "pdf" →
      (if env.pdfText = "" then 0 else (pyStrip env.pdfText).length) > 500 →
      extract_document_data env fp = text_path_result env.providers env.pdfText) ∧
    (fileExt fp = "pdf" →
      (if env.pdfText = "" then 0 else (pyStrip env.pdfText).length) ≤ 500 →
      extract_document_data env fp = pdf_image_path_result env fp) ∧
    ((fileExt fp = "jpg" ∨ fileExt fp = "jpeg" ∨ fileExt fp = "png") →
      extract_document_data env fp = extract_data_from_image (env.imageEnv fp) fp) ∧
    (fileExt fp ≠ "pdf" →
      ¬(fileExt fp = "jpg" ∨ fileExt fp = "jpeg" ∨ fileExt fp = "png") →
      extract_document_data env fp = []) := by
  refine ⟨?_, ?_, ?_, ?_⟩
  · intro hext hlen
    simp [extract_document_data, hext, hlen]
  · intro hext hlen
    simp [extract_document_data, hext, Nat.not_lt.mpr hlen]
  · intro hext
    have hnp : ¬ fileExt fp = "pdf" := by
      rcases hext with h | h | h <;> simp [h]
    simp [extract_document_data, hnp, hext]
  · intro hnp hni
    simp [extract_document_data, hnp, hni]

def imgEnvNoop : ImageEnv :=
  ⟨false, false, fun _ => 0, none, false, "", fun _ => none⟩

def docEnvLongText : DocEnv :=
  ⟨⟨true, true, .json [("company_name", PyVal.vstr "Acme LTDA")], none⟩,
    String.mk (List.replicate 501 'x'), none, fun _ => imgEnvNoop⟩

def docEnvOther : DocEnv :=
  ⟨⟨true, true, .exn, none⟩, "short text", none, fun _ => imgEnvNoop⟩

set_option maxRecDepth 8000

/-- Witness for `claimC2`: a PDF with 501 characters of embedded text takes
the text chain, and an unsupported `.docx` upload yields the empty map. -/
theorem claimC2_witness :
    extract_document_data docEnvLongText "scan.pdf"
      = text_path_result docEnvLongText.providers docEnvLongText.pdfText ∧
    extract_document_data docEnvOther "notes.docx" = [] := by
  constructor
  · exact (claimC2 docEnvLongText "scan.pdf").1 (by decide) (by decide)
  · exact (claimC2 docEnvOther "notes.docx").2.2.2 (by decide) (by decide)

/-! ### Completeness validator -/

/-- The `is_empty` helper of `is_contract_complete` (app.py 527–534): a
value is missing when it is `None`, or its `str` trims to the empty
string, case-insensitively equals `none`/`null`/`undefined`, or starts
with the `...`/`___` placeholder markers. -/
def is_empty (val : PyVal) : Bool :=
  match val with
  | .vnone => true
  | v =>
    let s := pyStrip (pyStr v)
    s == "" || pyLower s == "none" || pyLower s == "null" || pyLower s == "undefined"
      || pyStartsWith s "..." || pyStartsWith s "___"

/-- A contract record as `is_contract_complete` reads it:
`contract.get('partners', [])` and `contract.get('company_data', {})`
(an absent key and an empty value are both the falsy default). -/
structure Contract where
  partners : List Dict
  company_data : Dict

def required_partner_fields : List String :=
  ["name", "nationality", "civil_state", "profession",
   "birth_date", "cpf", "address", "quotas", "amount", "percent"]

def required_company_fields : List String :=
  ["company_name", "company_address", "company_object",
   "company_cnae_list", "start_date", "capital_currency", "signature_date"]

/-- One pass of the field loop: the markers `tag ++ field` for each
required field of `d` that `is_empty` flags, in field order. -/
def fieldMarkers (tag : String) (fields : List String) (d : Dict) : List String :=
  match fields with
  | [] => []
  | f :: rest =>
    if is_empty (dictGet d f) then (tag ++ f) :: fieldMarkers tag rest d
    else fieldMarkers tag rest d

/-- The `for i, partner in enumerate(partners)` loop of
`is_contract_complete`, accumulating `partner_<i>_<field>` markers. -/
def partnersMissing (fields : List String) (i : Nat) : List Dict → List String
  | [] => []
  | p :: rest =>
    fieldMarkers ("partner_" ++ toString i ++ "_") fields p
      ++ partnersMissing fields (i + 1) rest

/-- `is_contract_complete` (app.py 503–552): collects
`no_partners_added`, per-partner markers, then `no_company_data` or
per-company-field markers, and is complete exactly when nothing was
collected. -/
def is_contract_complete (c : Contract) : Bool × List String :=
  let m1 : List String := if c.partners.isEmpty then ["no_partners_added"] else []
  let m2 := m1 ++ partnersMissing required_partner_fields 0 c.partners
  let m3 := m2 ++
    (if c.company_data.isEmpty then ["no_company_data"]
     else fieldMarkers "company_" required_company_fields c.company_data)
  (m3.isEmpty, m3)

theorem fieldMarkers_eq_nil (tag : String) (fields : List String) (d : Dict) :
    fieldMarkers tag fields d = [] ↔
      ∀ f ∈ fields, is_empty (dictGet d f) = false := by
  induction fields with
  | nil => simp [fieldMarkers]
  | cons f rest ih =>
    by_cases h : is_empty (dictGet d f) <;> simp [fieldMarkers, h, ih]

theorem partnersMissing_eq_nil (fields : List String) (i : Nat) (l : List Dict) :
    partnersMissing fields i l = [] ↔
      ∀ p ∈ l, ∀ f ∈ fields, is_empty (dictGet p f) = false := by
  induction l generalizing i with
  | nil => simp [partnersMissing]
  | cons p rest ih =>
    simp [partnersMissing, List.append_eq_nil, fieldMarkers_eq_nil, ih]

theorem mem_fieldMarkers (tag : String) (fields : List String) (d : Dict)
    (f : String) (hf : f ∈ fields) (he : is_empty (dictGet d f) = true) :
    (tag ++ f) ∈ fieldMarkers tag fields d := by
  induction fields with
  | nil => cases hf
  | cons g rest ih =>
    rcases List.mem_cons.mp hf with h | h
    · subst h
      simp [fieldMarkers, he]
    · by_cases hg : is_empty (dictGet d g) <;> simp [fieldMarkers, hg, ih h]

theorem mem_partnersMissing (fields : List String) (l : List Dict) :
    ∀ (start i : Nat) (p : Dict), l.get? i = some p →
      ∀ f ∈ fields, is_empty (dictGet p f) = true →
      ("partner_" ++ toString (start + i) ++ "_" ++ f) ∈ partnersMissing fields start l := by
  induction l with
  | nil => intro start i p hp; cases hp
  | cons q rest ih =>
    intro start i p hp f hf he
    cases i with
    | zero =>
      have hq : q = p := by
        simpa [List.get?] using hp
      subst hq
      simp only [partnersMissing, Nat.add_zero, List.mem_append]
      exact Or.inl (mem_fieldMarkers _ fields q f hf he)
    | succ j =>
      have hrest := ih (start + 1) j p (by simpa [List.get?] using hp) f hf he
      simp only [partnersMissing, List.mem_append]
      right
      have harith : start + 1 + j = start + (j + 1) := by omega
      rwa [harith] at hrest

theorem pair_eq_true_nil (l : List String) :
    ((l.isEmpty, l) = ((true : Bool), ([] : List String))) ↔ l = [] := by
  constructor
  · intro h
    exact congrArg Prod.snd h
  · intro h
    subst h
    rfl

/-- C4: `is_contract_complete` returns `(True, [])` exactly when the
partner list is non-empty, the company data is non-empty, and no required
partner or company field is missing (in the `is_empty` sense of null /
trims-to-empty / none-null-undefined / `...`-or-`___` placeholder); each
missing partner field is reported as `partner_<i>_<field>`, each missing
company field as `company_<field>`, and a zero-partner contract
contributes the single marker `no_partners_added` with no per-field
partner markers. -/
theorem claimC4 (c : Contract) :
    (is_contract_complete c = (true, []) ↔
      (c.partners ≠ [] ∧ c.company_data ≠ [] ∧
       (∀ p ∈ c.partners, ∀ f ∈ required_partner_fields,
         is_empty (dictGet p f) = false) ∧
       (∀ f ∈ required_company_fields,
         is_empty (dictGet c.company_data f) = false))) ∧
    (∀ i p f, c.partners.get? i = some p → f ∈ required_partner_fields →
      is_empty (dictGet p f) = true →
      ("partner_" ++ toString i ++ "_" ++ f) ∈ (is_contract_complete c).2) ∧
    (c.company_data ≠ [] → ∀ f ∈ required_company_fields,
      is_empty (dictGet c.company_data f) = true →
      ("company_" ++ f) ∈ (is_contract_complete c).2) ∧
    (c.partners = [] →
      (is_contract_complete c).2 =
        "no_partners_added" ::
          (if c.company_data.isEmpty then ["no_company_data"]
           else fieldMarkers "company_" required_company_fields c.company_data)) := by
  obtain ⟨ps, cd⟩ := c
  show _ ∧ _ ∧ _ ∧ (ps = [] → _)
  refine ⟨?_, ?_, ?_, ?_⟩
  · simp only [is_contract_complete]
    rw [pair_eq_true_nil]
    by_cases hp : ps.isEmpty <;> by_cases hc2 : cd.isEmpty
    · have h1 := List.isEmpty_iff.mp hp
      have h2 := List.isEmpty_iff.mp hc2
      simp [hp, hc2, h1, h2]
    · have h1 := List.isEmpty_iff.mp hp
      simp [hp, hc2, h1]
    · have h2 := List.isEmpty_iff.mp hc2
      have h1 : ps ≠ [] := fun h => hp (by simp [h])
      simp [hp, hc2, h1, h2, List.append_eq_nil, partnersMissing_eq_nil]
    · have h1 : ps ≠ [] := fun h => hp (by simp [h])
      have h2 : cd ≠ [] := fun h => hc2 (by simp [h])
      simp [hp, hc2, h1, h2, List.append_eq_nil, partnersMissing_eq_nil,
        fieldMarkers_eq_nil]
  · intro i p f hip hf he
    have hmem := mem_partnersMissing required_partner_fields ps 0 i p hip f hf he
    simp only [Nat.zero_add] at hmem
    simp only [is_contract_complete, List.mem_append]
    exact Or.inl (Or.inr hmem)
  · intro hc2 f hf he
    have hmem := mem_fieldMarkers "company_" required_company_fields cd f hf he
    simp only [is_contract_complete, List.mem_append]
    right
    have hfalse : cd.isEmpty = false := by
      cases h : cd.isEmpty
      · rfl
      · exact absurd (List.isEmpty_iff.mp h) hc2
    simp [hfalse, hmem]
  · intro hp
    subst hp
    simp [is_contract_complete, partnersMissing]

/-- Witness for `claimC4`: a one-partner contract with every required
field set to a non-placeholder string is complete. -/
theorem claimC4_witness :
    is_contract_complete
      ⟨[[("name", .vstr "Maria Silva"), ("nationality", .vstr "brasileira"),
         ("civil_state", .vstr "solteira"), ("profession", .vstr "engenheira"),
         ("birth_date", .vstr "01/01/1990"), ("cpf", .vstr "123.456.789-00"),
         ("address", .vstr "Rua A, 10"), ("quotas", .vstr "100"),
         ("amount", .vstr "10000"), ("percent", .vstr "100")]],
       [("company_name", .vstr "Acme LTDA"), ("company_address", .vstr "Rua B, 20"),
        ("company_object", .vstr "Comercio"), ("company_cnae_list", .vstr "4711-3/02"),
        ("start_date", .vstr "02/02/2024"), ("capital_currency", .vstr "R$ 10.000,00"),
        ("signature_date", .vstr "03/03/2024")]⟩ = (true, []) :=
  (claimC4 _).1.mpr ⟨by simp, by simp, by decide, by decide⟩

/-- C9: when `company_data` is missing or empty, `is_contract_complete`
reports the `no_company_data` marker (absent from the spec), produces no
per-field `company_<field>` markers, and reports the contract
incomplete. -/
theorem claimC9 (c : Contract) (h : c.company_data = []) :
    "no_company_data" ∈ (is_contract_complete c).2 ∧
    (is_contract_complete c).2 =
      (if c.partners.isEmpty then ["no_partners_added"] else [])
        ++ partnersMissing required_partner_fields 0 c.partners
        ++ ["no_company_data"] ∧
    (is_contract_complete c).1 = false := by
  have hemp : c.company_data.isEmpty = true := by simp [h]
  refine ⟨?_, ?_, ?_⟩
  · simp [is_contract_complete, hemp]
  · simp [is_contract_complete, hemp]
  · simp [is_contract_complete, hemp]

/-- Witness for `claimC9` at a concrete one-partner contract with no
company data. -/
theorem claimC9_witness :
    "no_company_data" ∈
      (is_contract_complete ⟨[[("name", PyVal.vstr "Maria")]], []⟩).2 ∧
    (is_contract_complete ⟨[[("name", PyVal.vstr "Maria")]], []⟩).1 = false :=
  ⟨(claimC9 ⟨[[("name", PyVal.vstr "Maria")]], []⟩ rfl).1,
   (claimC9 ⟨[[("name", PyVal.vstr "Maria")]], []⟩ rfl).2.2⟩

/-! ### Placeholder substituter -/

/-- The fixed label table of `apply_placeholders` (app.py 962–976). -/
def placeholder_mappings : List (String × String) :=
  [("name", "[NOME COMPLETO]"), ("cpf", "[CPF]"), ("rg", "[RG]"),
   ("nationality", "[NACIONALIDADE]"), ("civil_state", "[ESTADO CIVIL]"),
   ("profession", "[PROFISSÃO]"), ("address", "[ENDEREÇO COMPLETO]"),
   ("company_name", "[RAZÃO SOCIAL]"), ("company_address", "[ENDEREÇO DA SEDE]"),
   ("capital_currency", "[CAPITAL R$]"), ("capital_amount_text", "[CAPITAL POR EXTENSO]"),
   ("start_date", "[DATA DE INÍCIO]"), ("signature_date", "[DATA DE ASSINATURA]")]

/-- Placeholder chosen for key `k` (app.py 958–982): the generic
`[KEY WITH SPACES]`, overridden by the fixed table for known keys, and by
`[NOME DO SÓCIO]` for unknown keys containing both `partner` and `name`. -/
def placeholder_for (k : String) : String :=
  let generic := "[" ++ pyReplaceChar (pyUpper k) '_' ' ' ++ "]"
  match placeholder_mappings.lookup k with
  | some label => label
  | none => if pyIn "partner" k && pyIn "name" k then "[NOME DO SÓCIO]" else generic

/-- The claim's placeholder rule, amended with the `partner`/`name`
special case: fixed label for table keys, `[NOME DO SÓCIO]` for other keys
containing both `partner` and `name`, the bracketed upper-cased key with
underscores turned to spaces otherwise. -/
def placeholder_label_spec (k : String) : String :=
  match placeholder_mappings.lookup k with
  | some label => label
  | none =>
    if pyIn "partner" k && pyIn "name" k then "[NOME DO SÓCIO]"
    else "[" ++ pyReplaceChar (pyUpper k) '_' ' ' ++ "]"

/-- The `elif not v or str(v).strip() == ""` test of `apply_placeholders`
(app.py 957): a scalar is replaced when it is falsy or its string form
trims to nothing. -/
def blankScalar (v : PyVal) : Bool :=
  !pyTruthy v || pyStrip (pyStr v) == ""

def isScalar : PyVal → Bool
  | .vdict _ => false
  | .vlist _ => false
  | _ => true

mutual
/-- `apply_placeholders` (app.py 948–990): recursively replaces the blank
scalar values of a nested record with bracketed placeholders. -/
def apply_placeholders : PyVal → PyVal
  | .vdict fields => .vdict (placeholderFields fields)
  | .vlist items => .vlist (placeholderItems items)
  | v => v

def placeholderFields : List (String × PyVal) → List (String × PyVal)
  | [] => []
  | (k, v) :: rest => (k, placeholderEntry k v) :: placeholderFields rest

/-- One dict entry: recurse into containers, keep non-blank scalars,
replace blank scalars with the key's placeholder. -/
def placeholderEntry (k : String) : PyVal → PyVal
  | .vdict fs => .vdict (placeholderFields fs)
  | .vlist xs => .vlist (placeholderItems xs)
  | v => if blankScalar v then .vstr (placeholder_for k) else v

def placeholderItems : List PyVal → List PyVal
  | [] => []
  | x :: rest => apply_placeholders x :: placeholderItems rest
end

/-- The partner record as `process` initialises it, with every field
empty. -/
def emptyPartnerRecord : Dict :=
  [("id", .vstr ""), ("name", .vstr ""), ("nationality", .vstr ""),
   ("civil_state", .vstr ""), ("regime", .vstr ""), ("profession", .vstr ""),
   ("birth_date", .vstr ""), ("cpf", .vstr ""), ("address", .vstr ""),
   ("quotas", .vstr ""), ("amount", .vstr ""), ("percent", .vstr "")]

/-- Reversed-prefix check: Python `s.endswith(p)`. -/
def pyEndsWith (s p : String) : Bool :=
  charsLead p.data.reverse s.data.reverse

/-- A non-empty `[...]`-delimited string value. -/
def bracketedNonEmpty : PyVal → Bool
  | .vstr s => s != "" && pyStartsWith s "[" && pyEndsWith s "]"
  | _ => false

theorem apply_placeholders_vdict (fields : List (String × PyVal)) :
    apply_placeholders (.vdict fields) = .vdict (placeholderFields fields) := by
  simp [apply_placeholders]

theorem placeholderFields_eq_map (fields : List (String × PyVal)) :
    placeholderFields fields = fields.map fun kv => (kv.1, placeholderEntry kv.1 kv.2) := by
  induction fields with
  | nil => simp [placeholderFields]
  | cons kv rest ih =>
    obtain ⟨k, v⟩ := kv
    simp [placeholderFields, ih]

theorem placeholderItems_eq_map (items : List PyVal) :
    placeholderItems items = items.map apply_placeholders := by
  induction items with
  | nil => simp [placeholderItems]
  | cons x rest ih => simp [placeholderItems, ih]

theorem placeholderEntry_scalar_blank (k : String) (v : PyVal)
    (hs : isScalar v = true) (hb : blankScalar v = true) :
    placeholderEntry k v = .vstr (placeholder_for k) := by
  cases v <;> simp_all [placeholderEntry, isScalar]

theorem placeholderEntry_scalar_keep (k : String) (v : PyVal)
    (hs : isScalar v = true) (hb : blankScalar v = false) :
    placeholderEntry k v = v := by
  cases v <;> simp_all [placeholderEntry, isScalar]

/-- C5, counterexample.  The claim says a blank value under a key outside
the fixed mapping table gets the generic bracketed upper-cased placeholder.
The key `partner_name` is outside the table, so the claim predicts
`[PARTNER NAME]`; the code's extra `'partner' in k and 'name' in k` branch
produces `[NOME DO SÓCIO]` instead. -/
theorem claimC5_counterexample :
    placeholder_mappings.lookup "partner_name" = none ∧
    apply_placeholders (.vdict [("partner_name", .vstr "")])
      = .vdict [("partner_name", .vstr "[NOME DO SÓCIO]")] ∧
    "[" ++ pyReplaceChar (pyUpper "partner_name") '_' ' ' ++ "]" = "[PARTNER NAME]" ∧
    ("[NOME DO SÓCIO]" : String) ≠ "[PARTNER NAME]" := by
  have hb : blankScalar (.vstr "") = true := by decide
  have hpf : placeholder_for "partner_name" = "[NOME DO SÓCIO]" := by decide
  refine ⟨rfl, ?_, by decide, by decide⟩
  rw [apply_placeholders_vdict, placeholderFields_eq_map]
  simp [placeholderEntry_scalar_blank "partner_name" (.vstr "") rfl hb, hpf]

/-- C5, amended.  `apply_placeholders` maps every blank scalar of a nested
record to the non-empty bracketed placeholder of its key — the fixed table
label for known keys, `[NOME DO SÓCIO]` for other keys containing both
`partner` and `name`, and otherwise the generic bracketed upper-cased key
with underscores replaced by spaces — leaves non-blank scalars unchanged,
recurses into nested dicts and lists, and on the all-empty partner record
returns only non-empty bracketed values. -/
theorem claimC5_amended :
    (∀ k, placeholder_for k = placeholder_label_spec k) ∧
    (∀ k v, isScalar v = true → blankScalar v = true →
      placeholderEntry k v = .vstr (placeholder_for k)) ∧
    (∀ k v, isScalar v = true → blankScalar v = false → placeholderEntry k v = v) ∧
    (∀ fields, apply_placeholders (.vdict fields)
      = .vdict (fields.map fun kv => (kv.1, placeholderEntry kv.1 kv.2))) ∧
    (∀ items, apply_placeholders (.vlist items) = .vlist (items.map apply_placeholders)) ∧
    (∀ k fs, placeholderEntry k (.vdict fs) = apply_placeholders (.vdict fs)) ∧
    (∀ k xs, placeholderEntry k (.vlist xs) = apply_placeholders (.vlist xs)) ∧
    (∀ fields, (∀ kv ∈ fields, isScalar kv.2 = true ∧ blankScalar kv.2 = true) →
      apply_placeholders (.vdict fields)
        = .vdict (fields.map fun kv => (kv.1, .vstr (placeholder_for kv.1)))) ∧
    ((emptyPartnerRecord.map fun kv => (kv.1, PyVal.vstr (placeholder_for kv.1))).all
      (fun kv => bracketedNonEmpty kv.2) = true) := by
  have hmap : ∀ fields, apply_placeholders (PyVal.vdict fields)
      = .vdict (fields.map fun kv => (kv.1, placeholderEntry kv.1 kv.2)) := by
    intro fields
    rw [apply_placeholders_vdict, placeholderFields_eq_map]
  refine ⟨fun k => rfl, placeholderEntry_scalar_blank, placeholderEntry_scalar_keep,
    hmap, ?_, ?_, ?_, ?_, by decide⟩
  · intro items
    rw [show apply_placeholders (PyVal.vlist items) = .vlist (placeholderItems items) by
          simp [apply_placeholders],
        placeholderItems_eq_map]
  · intro k fs
    rw [apply_placeholders_vdict]
    simp [placeholderEntry]
  · intro k xs
    rw [show apply_placeholders (PyVal.vlist xs) = .vlist (placeholderItems xs) by
          simp [apply_placeholders]]
    simp [placeholderEntry]
  · intro fields hall
    rw [hmap]
    congr 1
    apply List.map_congr_left
    intro kv hkv
    rcases hall kv hkv with ⟨hs, hb⟩
    rw [placeholderEntry_scalar_blank kv.1 kv.2 hs hb]

/-- Witness for `claimC5_amended`: the all-empty partner record maps to the
per-key placeholders (every value checked non-empty and bracketed by the
final conjunct). -/
theorem claimC5_amended_witness :
    apply_placeholders (.vdict emptyPartnerRecord)
      = .vdict (emptyPartnerRecord.map fun kv => (kv.1, PyVal.vstr (placeholder_for kv.1))) :=
  claimC5_amended.2.2.2.2.2.2.2.1 emptyPartnerRecord (by decide)

/-- C10: the replacement test of `apply_placeholders` fires on every falsy
or blank scalar, not only the empty string — numeric 0, `False`, `None`
and a whitespace-only string are all replaced; in particular an integer
`id` of `0` becomes the string `[ID]`. -/
theorem claimC10 :
    blankScalar (.vint 0) = true ∧
    blankScalar (.vbool false) = true ∧
    blankScalar .vnone = true ∧
    blankScalar (.vstr "   ") = true ∧
    blankScalar (.vstr "x") = false ∧
    apply_placeholders (.vdict [("id", .vint 0)]) = .vdict [("id", .vstr "[ID]")] ∧
    apply_placeholders (.vdict [("flag", .vbool false)]) = .vdict [("flag", .vstr "[FLAG]")] ∧
    apply_placeholders (.vdict [("spouse", .vnone)]) = .vdict [("spouse", .vstr "[SPOUSE]")] ∧
    apply_placeholders (.vdict [("note", .vstr " ")]) = .vdict [("note", .vstr "[NOTE]")] := by
  have hid : placeholder_for "id" = "[ID]" := by decide
  have hflag : placeholder_for "flag" = "[FLAG]" := by decide
  have hspouse : placeholder_for "spouse" = "[SPOUSE]" := by decide
  have hnote : placeholder_for "note" = "[NOTE]" := by decide
  refine ⟨by decide, by decide, by decide, by decide, by decide, ?_, ?_, ?_, ?_⟩
  all_goals
    rw [apply_placeholders_vdict, placeholderFields_eq_map]
    simp only [List.map]
    rw [placeholderEntry_scalar_blank _ _ (by decide) (by decide)]
    simp [hid, hflag, hspouse, hnote]

/-! ### Address composer

Two inline copies exist: in `process` (app.py 711–724) and in
`extract_single_document` (app.py 1100–1114).  Both prefer a non-empty
`full_address` verbatim and otherwise comma-join the decomposed parts,
filtering out empty parts and the degenerate `/` and `CEP ` tokens; the
single-document copy additionally guards the `city/state` segment on
`city` and the `CEP` segment on `zip_code`. -/

/-- The address-proof extraction result fields the composers read
(each via `.get(key, '')`; an absent key is the empty string). -/
structure AddrData where
  full_address : String
  street : String
  number : String
  complement : String
  neighborhood : String
  city : String
  state : String
  zip_code : String

/-- `', '.join(p for p in parts if p and p != '/' and p != 'CEP ')`. -/
def joinParts (parts : List String) : String :=
  String.intercalate ", " (parts.filter fun p => p != "" && p != "/" && p != "CEP ")

/-- Address composition in `process`: `none` models "leave the record's
address untouched" (neither branch taken). -/
def compose_address_process (a : AddrData) : Option String :=
  if a.full_address != "" then some a.full_address
  else if a.street != "" then
    some (joinParts [a.street, a.number, a.complement, a.neighborhood,
      a.city ++ "/" ++ a.state, "CEP " ++ a.zip_code])
  else none

/-- Address composition in `extract_single_document`. -/
def compose_address_single (a : AddrData) : Option String :=
  if a.full_address != "" then some a.full_address
  else if a.street != "" then
    some (joinParts [a.street, a.number, a.complement, a.neighborhood,
      (if a.city != "" then a.city ++ "/" ++ a.state else ""),
      (if a.zip_code != "" then "CEP " ++ a.zip_code else "")])
  else none

/-- C8: both address composers return a non-empty `full_address` verbatim;
otherwise they comma-join the non-empty decomposed parts in fixed order,
and when city, state and zip are all empty neither a bare `/` nor a bare
`CEP ` token appears — the result is the join of the first four parts
alone; in particular street `Rua A` and number `10` with all else empty
compose to exactly `Rua A, 10`. -/
theorem claimC8 (a : AddrData) :
    (a.full_address ≠ "" →
      compose_address_process a = some a.full_address ∧
      compose_address_single a = some a.full_address) ∧
    (a.full_address = "" → a.street ≠ "" → a.city = "" → a.state = "" → a.zip_code = "" →
      compose_address_process a
        = some (joinParts [a.street, a.number, a.complement, a.neighborhood]) ∧
      compose_address_single a
        = some (joinParts [a.street, a.number, a.complement, a.neighborhood])) ∧
    (compose_address_process ⟨"", "Rua A", "10", "", "", "", "", ""⟩ = some "Rua A, 10" ∧
     compose_address_single ⟨"", "Rua A", "10", "", "", "", "", ""⟩ = some "Rua A, 10") := by
  refine ⟨?_, ?_, by decide, by decide⟩
  · intro h
    constructor <;> simp [compose_address_process, compose_address_single, h]
  · intro hfa hst hcity hstate hzip
    have hslash : a.city ++ "/" ++ a.state = "/" := by rw [hcity, hstate]; decide
    have hcep : "CEP " ++ a.zip_code = "CEP " := by rw [hzip]; decide
    constructor
    · simp [compose_address_process, hfa, hst, hslash, hcep, joinParts, List.filter,
        bne_iff_ne]
    · simp [compose_address_single, hfa, hst, hcity, hzip, joinParts, List.filter,
        bne_iff_ne]

/-- Witness for `claimC8`: a pre-built full address passes through
verbatim, and the `Rua A` / `10` record composes without `/` or `CEP `
tokens in both copies. -/
theorem claimC8_witness :
    compose_address_process ⟨"Av. Brasil, 100", "", "", "", "", "", "", ""⟩
      = some "Av. Brasil, 100" ∧
    compose_address_process ⟨"", "Rua A", "10", "", "", "", "", ""⟩
      = some (joinParts ["Rua A", "10", "", ""]) := by
  constructor
  · exact ((claimC8 ⟨"Av. Brasil, 100", "", "", "", "", "", "", ""⟩).1 (by decide)).1
  · exact ((claimC8 ⟨"", "Rua A", "10", "", "", "", "", ""⟩).2.1 rfl (by decide) rfl rfl rfl).1

end ContractApp
